import Mathlib

/-!
Verification development for the pmx `analyze_dgdl` free-energy estimation
facade (scripts/analyze_dgdl.py) and the estimation engine it drives.

The facade itself (method dispatch, unit selection, file-index selection and
the conditional reporting of error kinds) is embedded from
scripts/analyze_dgdl.py.  The estimator internals (`pmx.estimators.Crooks`,
`BAR`, `Jarz` and the shared resampling engine) are not part of the staged
source tree; where a claim depends on them they are modelled from the spec,
each such definition carrying a doc comment starting "Modelled from the
spec:".  Work values, means and error values are modelled as exact rationals;
transcendental primitives (exp, log, sqrt) are supplied as function
parameters so every definition stays executable.
-/

namespace Pmx

/-- Boltzmann constant in kJ/(K*mol), the literal `kb = 0.00831447215` of
scripts/analyze_dgdl.py line 45. -/
def kb : ℚ := 831447215 / 100000000000

/-- The attributes of the Crooks estimator object that the facade reads
(scripts/analyze_dgdl.py lines 449-477). -/
structure CrooksRaw where
  mf : ℚ
  devf : ℚ
  mr : ℚ
  devr : ℚ
  dg : ℚ
  err_boot1 : ℚ
  err_boot2 : ℚ
  err_blocks : ℚ
deriving DecidableEq

/-- The attributes of the BAR estimator object that the facade reads
(scripts/analyze_dgdl.py lines 510-525). -/
structure BarRaw where
  dg : ℚ
  err : ℚ
  err_boot : ℚ
  err_blocks : ℚ
  conv : ℚ
  conv_err_boot : ℚ
deriving DecidableEq

/-- The attributes of the Jarzynski estimator object that the facade reads
(scripts/analyze_dgdl.py lines 535-555). -/
structure JarzRaw where
  dg_for : ℚ
  dg_rev : ℚ
  dg_mean : ℚ
  err_boot_for : ℚ
  err_boot_rev : ℚ
  err_blocks_for : ℚ
  err_blocks_rev : ℚ
deriving DecidableEq

/-- One kind of reported quantity, one constructor per distinct labelled
value the facade prints for the estimators. -/
inductive Label where
  | gaussMeanF
  | gaussStdF
  | gaussMeanR
  | gaussStdR
  | dG
  | dGfor
  | dGrev
  | dGmean
  | errAnalytical
  | errBootstrap
  | errBlocks
  | errBootstrapFor
  | errBootstrapRev
  | errBlocksFor
  | errBlocksRev
  | conv
  | convErrBootstrap
deriving DecidableEq, BEq

/-- One reported value of the facade's result: a label and the numeric value
printed next to it (string formatting and precision aside). -/
structure Entry where
  label : Label
  value : ℚ
deriving DecidableEq

/-- The unit factor selection of scripts/analyze_dgdl.py lines 328-340: the
lower-cased units string maps to a multiplicative factor, any other string
makes the program exit. -/
def parseUnitFact (units : String) (T : ℚ) : Except String ℚ :=
  if units = "kj" then .ok 1
  else if units = "kcal" then .ok (1 / (4184 / 1000))
  else if units = "kt" then .ok (1 / (kb * T))
  else .error "No unit type available"

/-- CGI section of the report, from scripts/analyze_dgdl.py lines 443-477:
Gauss parameters, dG and the parametric-bootstrap ("analytical") error are
always printed scaled by the unit factor; the nonparametric bootstrap error
only when `nboots > 0`; the block error only when `nblocks > 1`. -/
def cgiReport (uf : ℚ) (c : CrooksRaw) (nboots nblocks : ℕ) : List Entry :=
  [⟨.gaussMeanF, c.mf * uf⟩, ⟨.gaussStdF, c.devf * uf⟩,
   ⟨.gaussMeanR, c.mr * uf⟩, ⟨.gaussStdR, c.devr * uf⟩,
   ⟨.dG, c.dg * uf⟩, ⟨.errAnalytical, c.err_boot1 * uf⟩]
  ++ (if 0 < nboots then [⟨.errBootstrap, c.err_boot2 * uf⟩] else [])
  ++ (if 1 < nblocks then [⟨.errBlocks, c.err_blocks * uf⟩] else [])

/-- BAR section of the report, from scripts/analyze_dgdl.py lines 503-525:
dG and the analytical error scaled by the unit factor, bootstrap error only
when `nboots > 0`, block error only when `nblocks > 1`; the dimensionless
`Conv` diagnostic and its bootstrap error are printed without the unit
factor, the latter only when `nboots > 0`. -/
def barReport (uf : ℚ) (b : BarRaw) (nboots nblocks : ℕ) : List Entry :=
  [⟨.dG, b.dg * uf⟩, ⟨.errAnalytical, b.err * uf⟩]
  ++ (if 0 < nboots then [⟨.errBootstrap, b.err_boot * uf⟩] else [])
  ++ (if 1 < nblocks then [⟨.errBlocks, b.err_blocks * uf⟩] else [])
  ++ [⟨.conv, b.conv⟩]
  ++ (if 0 < nboots then [⟨.convErrBootstrap, b.conv_err_boot⟩] else [])

/-- Jarzynski section of the report, from scripts/analyze_dgdl.py lines
530-555: the three dG values scaled by the unit factor, the two bootstrap
errors only when `nboots > 0`, the two block errors only when
`nblocks > 1`. -/
def jarzReport (uf : ℚ) (j : JarzRaw) (nboots nblocks : ℕ) : List Entry :=
  [⟨.dGfor, j.dg_for * uf⟩, ⟨.dGrev, j.dg_rev * uf⟩, ⟨.dGmean, j.dg_mean * uf⟩]
  ++ (if 0 < nboots then
        [⟨.errBootstrapFor, j.err_boot_for * uf⟩,
         ⟨.errBootstrapRev, j.err_boot_rev * uf⟩]
      else [])
  ++ (if 1 < nblocks then
        [⟨.errBlocksFor, j.err_blocks_for * uf⟩,
         ⟨.errBlocksRev, j.err_blocks_rev * uf⟩]
      else [])

/-- The estimator names the facade recognizes: scripts/analyze_dgdl.py tests
exactly `'cgi' in methods`, `'bar' in methods`, `'jarz' in methods`. -/
def knownEstimators : List String := ["cgi", "bar", "jarz"]

/-- The estimator sections of a run's report, from scripts/analyze_dgdl.py
lines 443, 503 and 530: each section appears iff its name is an element of
the requested method list; there is no other use of the list. -/
def mainReport (methods : List String) (uf : ℚ) (c : CrooksRaw) (b : BarRaw)
    (j : JarzRaw) (nboots nblocks : ℕ) : List Entry :=
  (if "cgi" ∈ methods then cgiReport uf c nboots nblocks else [])
  ++ (if "bar" ∈ methods then barReport uf b nboots nblocks else [])
  ++ (if "jarz" ∈ methods then jarzReport uf j nboots nblocks else [])

/-- The analysis part of `main` (scripts/analyze_dgdl.py): select the unit
factor (the only exit point reachable from these options) and assemble the
estimator report.  No validation of the method list exists anywhere in
`main` or in `parse_options`. -/
def mainRun (methods : List String) (units : String) (T : ℚ) (c : CrooksRaw)
    (b : BarRaw) (j : JarzRaw) (nboots nblocks : ℕ) :
    Except String (List Entry) :=
  match parseUnitFact units T with
  | .error e => .error e
  | .ok uf => .ok (mainReport methods uf c b j nboots nblocks)

/-- The labels whose printed values carry no unit factor in
scripts/analyze_dgdl.py (lines 522 and 525): BAR's `Conv` diagnostic and its
bootstrap error. -/
def isConvLabel : Label → Bool
  | .conv => true
  | .convErrBootstrap => true
  | _ => false

/-- Rescale one reported entry by a unit factor the way the facade does:
energy-valued entries are multiplied by the factor, the dimensionless `Conv`
entries are left untouched. -/
def scaleEntry (uf : ℚ) (e : Entry) : Entry :=
  if isConvLabel e.label then e else ⟨e.label, e.value * uf⟩

/-- The labels of nonparametric bootstrap error values (including BAR's
bootstrap error on `Conv`). -/
def bootKinds : List Label :=
  [.errBootstrap, .errBootstrapFor, .errBootstrapRev, .convErrBootstrap]

/-- The labels of block-averaging error values. -/
def blockKinds : List Label := [.errBlocks, .errBlocksFor, .errBlocksRev]

/-- The error taxonomy of the estimation engine (spec section 7). -/
inductive EstErr where
  | InsufficientData
  | DegenerateVariance
  | NonConvergence
  | InvalidSelection
deriving DecidableEq

/-- Modelled from the spec: the logistic (Fermi) function `f(z) = 1/(1+e^z)`
of BAR's implicit equation (section 4.4); `pmx.estimators.BAR` is not under
src/, and the exponential is supplied as a function parameter so the model
stays executable over the rationals. -/
def fermi (expf : ℚ → ℚ) (z : ℚ) : ℚ := 1 / (1 + expf z)

/-- Modelled from the spec: BAR's implicit function
`g(x) = Σ_i f(β(Wf_i − x)) − Σ_j f(β(x − Wr_j))` (section 4.4);
`pmx.estimators.BAR` is not under src/. -/
def gBAR (expf : ℚ → ℚ) (beta : ℚ) (wf wr : List ℚ) (x : ℚ) : ℚ :=
  (wf.map (fun w => fermi expf (beta * (w - x)))).sum
    - (wr.map (fun w => fermi expf (beta * (x - w)))).sum

/-- Absolute value of a rational, written out so it evaluates by
reduction. -/
def ratAbs (q : ℚ) : ℚ := if q < 0 then -q else q

/-- Modelled from the spec: BAR's derivative-free root search, iterating
until `|g(x)| < tol` or the iteration cap is exhausted (`none` standing for
the NonConvergence condition); bisection is substituted for the simplex
search as section 9 allows, with the same convergence contract. -/
def solveToTol (g : ℚ → ℚ) (tol : ℚ) : ℕ → ℚ → ℚ → Option ℚ
  | 0, _, _ => none
  | n + 1, lo, hi =>
    let mid := (lo + hi) / 2
    if ratAbs (g mid) < tol then some mid
    else if 0 < g mid then solveToTol g tol n lo mid
    else solveToTol g tol n mid hi

/-- Modelled from the spec: the BAR point estimate — the accepted root of
`gBAR` within the configured tolerance, `none` on NonConvergence
(section 4.4); `pmx.estimators.BAR` is not under src/. -/
def barDG (expf : ℚ → ℚ) (beta tol : ℚ) (maxit : ℕ) (wf wr : List ℚ)
    (lo hi : ℚ) : Option ℚ :=
  solveToTol (gBAR expf beta wf wr) tol maxit lo hi

/-- Modelled from the spec: the candidate intersection points of the two
fitted Gaussians (section 4.3); `pmx.estimators.Crooks` is not under src/.
When `σf = σr` the quadratic degenerates and the linear equation is solved
directly (its log term vanishes); otherwise the two quadratic roots are the
candidates.  Square root and natural logarithm are supplied as function
parameters so the model stays executable over the rationals. -/
def cgiCandidates (sqrtf logf : ℚ → ℚ) (muf sigf mur sigr : ℚ) : List ℚ :=
  if sigf = sigr then
    let b := 2 * (muf / sigf ^ 2 - mur / sigr ^ 2)
    let c := mur ^ 2 / sigr ^ 2 - muf ^ 2 / sigf ^ 2
    if b = 0 then [] else [-c / b]
  else
    let a := 1 / sigr ^ 2 - 1 / sigf ^ 2
    let b := 2 * (muf / sigf ^ 2 - mur / sigr ^ 2)
    let c := mur ^ 2 / sigr ^ 2 - muf ^ 2 / sigf ^ 2 - 2 * logf (sigf / sigr)
    let d := sqrtf (b ^ 2 - 4 * a * c)
    [(-b + d) / (2 * a), (-b - d) / (2 * a)]

/-- Whether a candidate root lies between the two Gaussian means,
inclusively, whichever of the means is the smaller. -/
def betweenMeans (muf mur x : ℚ) : Bool :=
  decide (min muf mur ≤ x) && decide (x ≤ max muf mur)

/-- Modelled from the spec: the CGI point estimate (section 4.3) — the first
candidate root lying between the means, with the diagnostic flag
`intersects = true`; when no candidate falls in the valid range, the flag is
`false` and the estimate falls back to the midpoint `(μf + μr) / 2`. -/
def cgiEstimate (sqrtf logf : ℚ → ℚ) (muf sigf mur sigr : ℚ) : Bool × ℚ :=
  match (cgiCandidates sqrtf logf muf sigf mur sigr).filter
      (betweenMeans muf mur) with
  | [] => (false, (muf + mur) / 2)
  | r :: _ => (true, r)

/-- Modelled from the spec: the internally fixed default resample count of
CGI's always-computed parametric bootstrap (sections 4.3 and 9); the spec
leaves the exact constant open, and it is fixed here to 100.  It is not a
function of the user-supplied `nboots`. -/
def nbootsParametricDefault : ℕ := 100

/-- Modelled from the spec: the dG values of CGI's parametric bootstrap — a
fixed default number of (μ, σ) redraws, the intersection recomputed for each
(section 4.3); the four draw streams stand for the Normal and scaled-Chi
sampling distributions of the means and standard deviations. -/
def cgiAnalyticalDGs (sqrtf logf : ℚ → ℚ)
    (drawMuF drawSigF drawMuR drawSigR : ℕ → ℚ) : List ℚ :=
  (List.range nbootsParametricDefault).map fun k =>
    (cgiEstimate sqrtf logf (drawMuF k) (drawSigF k) (drawMuR k)
      (drawSigR k)).2

/-- Modelled from the spec: the per-direction Jarzynski exponential average
`−(1/β)·ln( mean_i exp(−β·W_i) )` (section 4.5); `pmx.estimators.Jarz` is
not under src/; exp and log are supplied as function parameters. -/
def jarzDir (expf logf : ℚ → ℚ) (beta : ℚ) (w : List ℚ) : ℚ :=
  -(1 / beta) * logf ((w.map (fun wi => expf (-(beta * wi)))).sum
    / (w.length : ℚ))

/-- Modelled from the spec: the combined Jarzynski estimate
`dG_mean = (dG_forward + dG_reverse) / 2` (section 4.5). -/
def jarz_dg_mean (expf logf : ℚ → ℚ) (beta : ℚ) (wf wr : List ℚ) : ℚ :=
  (jarzDir expf logf beta wf + jarzDir expf logf beta wr) / 2

/-- Split a list into consecutive chunks of the given sizes. -/
def splitSizes {α : Type} : List ℕ → List α → List (List α)
  | [], _ => []
  | s :: rest, xs => xs.take s :: splitSizes rest (xs.drop s)

/-- Modelled from the spec: `block_partition` (section 4.1) — split a
distribution, preserving order, into `nblocks` contiguous equal-as-possible
groups (the leading `length % nblocks` groups one element longer), failing
with the InsufficientData condition when `nblocks` exceeds the length. -/
def block_partition {α : Type} (xs : List α) (nblocks : ℕ) :
    Except EstErr (List (List α)) :=
  if xs.length < nblocks then .error .InsufficientData
  else
    .ok (splitSizes
      ((List.range nblocks).map fun k =>
        xs.length / nblocks + if k < xs.length % nblocks then 1 else 0)
      xs)

/-- Modelled from the spec: the shared random source of the resampling
engine, an explicitly threaded pure generator state (sections 4.1 and 5);
`pmx.estimators` is not under src/.  A linear congruential step stands for
the generator. -/
structure RandState where
  seed : ℕ
deriving DecidableEq

/-- One draw from the random source: the next raw value and the advanced
state. -/
def nextRand (s : RandState) : ℕ × RandState :=
  let v := (1103515245 * s.seed + 12345) % 2 ^ 31
  (v, ⟨v⟩)

/-- `count` indices below `n` drawn from the random source, threading the
state. -/
def drawIndices (n : ℕ) : ℕ → RandState → List ℕ × RandState
  | 0, s => ([], s)
  | k + 1, s =>
    let p := nextRand s
    let rest := drawIndices n k p.2
    (p.1 % n :: rest.1, rest.2)

/-- Modelled from the spec: `bootstrap_resample` (section 4.1) — `count` new
distributions of the input's size, each drawn with replacement from the
input, a pure function of the explicit random state. -/
def bootstrap_resample (xs : List ℚ) : ℕ → RandState → List (List ℚ) × RandState
  | 0, s => ([], s)
  | k + 1, s =>
    let ids := drawIndices xs.length xs.length s
    let rest := bootstrap_resample xs k ids.2
    (ids.1.map (fun i => xs.getD i 0) :: rest.1, rest.2)

/-- Arithmetic mean of a list of rationals. -/
def meanQ (xs : List ℚ) : ℚ := xs.sum / (xs.length : ℚ)

/-- Population variance of a list of rationals. -/
def varQ (xs : List ℚ) : ℚ :=
  (xs.map (fun x => (x - meanQ xs) ^ 2)).sum / (xs.length : ℚ)

/-- Standard deviation through a supplied square-root function. -/
def stdOf (sqrtf : ℚ → ℚ) (xs : List ℚ) : ℚ := sqrtf (varQ xs)

/-- Modelled from the spec: the error machinery every estimator shares
(sections 4.1 and 4.3-4.5) — the nonparametric bootstrap error when
`nboots > 0` (reapplying the point-estimate function to each resample pair
and consuming the random source), the block error when `nblocks > 1`
(reapplying it to each block pair, consuming no randomness, and surfacing
`block_partition`'s InsufficientData), and neither otherwise.  Returns the
two optional errors and the final random state. -/
def estimatorErrors (sqrtf : ℚ → ℚ) (pointEst : List ℚ → List ℚ → ℚ)
    (wf wr : List ℚ) (nboots nblocks : ℕ) (s : RandState) :
    (Option ℚ × Option (Except EstErr ℚ)) × RandState :=
  let boot :=
    if nboots = 0 then (none, s)
    else
      let bf := bootstrap_resample wf nboots s
      let br := bootstrap_resample wr nboots bf.2
      (some (stdOf sqrtf ((bf.1.zip br.1).map fun p => pointEst p.1 p.2)),
        br.2)
  let blockErr :=
    if nblocks = 1 then none
    else some (do
      let pf ← block_partition wf nblocks
      let pr ← block_partition wr nblocks
      pure (stdOf sqrtf ((pf.zip pr).map fun p => pointEst p.1 p.2)))
  ((boot.1, blockErr), boot.2)

/-- File selection by explicit indices, from scripts/analyze_dgdl.py lines
375-378: `[files[i] for i in index if i < len(files)]` — walk the requested
indices in order, drop an index that is not below the list length, and look
the kept ones up with fallible indexing (`none` models an out-of-range
indexing error). -/
def selectByIndex {α : Type} (files : List α) : List ℕ → Option (List α)
  | [] => some []
  | i :: rest =>
    if i < files.length then
      match files[i]?, selectByIndex files rest with
      | some x, some l => some (x :: l)
      | _, _ => none
    else selectByIndex files rest

/-! ## Theorems -/

/-- Claim C10: for every list of non-negative file indices, out-of-range
indices are silently dropped, the fallible indexing never fails, and the
selection is exactly the files at the in-range positions in the order the
indices were given. -/
theorem C10_index_selection {α : Type} [Inhabited α] (files : List α)
    (index : List ℕ) :
    selectByIndex files index
      = some ((index.filter (fun i => decide (i < files.length))).map
          (fun i => files.getD i default)) := by
  induction index with
  | nil => rfl
  | cons i rest ih =>
    by_cases h : i < files.length
    · have hx : files[i]? = some (files.getD i default) := by
        rw [List.getElem?_eq_getElem h, List.getD_eq_getElem?_getD,
          List.getElem?_eq_getElem h]
        rfl
      simp only [selectByIndex, if_pos h, hx, ih, List.filter_cons,
        decide_eq_true h, if_pos]
      simp
    · simp only [selectByIndex, if_neg h, ih, List.filter_cons]
      simp [h]

/-- Claim C8: `block_partition` fails with the InsufficientData condition
exactly when the requested number of blocks exceeds the distribution's
length, and any estimator's block-error computation then surfaces that same
condition (whenever a block error is computed at all, i.e. `nblocks ≠ 1`). -/
theorem C8_block_partition_insufficient (wf wr : List ℚ) (nblocks : ℕ)
    (sqrtf : ℚ → ℚ) (pointEst : List ℚ → List ℚ → ℚ) (nboots : ℕ)
    (s : RandState) :
    (block_partition wf nblocks = .error .InsufficientData
        ↔ wf.length < nblocks)
    ∧ (wf.length < nblocks → nblocks ≠ 1 →
        ((estimatorErrors sqrtf pointEst wf wr nboots nblocks s).1).2
          = some (.error .InsufficientData)) := by
  constructor
  · unfold block_partition
    by_cases h : wf.length < nblocks
    · simp [h]
    · simp [h]
  · intro h hne
    have hb : block_partition wf nblocks
        = (.error .InsufficientData : Except EstErr (List (List ℚ))) := by
      unfold block_partition
      simp [h]
    simp only [estimatorErrors, if_neg hne, hb]
    rfl

/-- Witness for C8 at a concrete input: one sample split into three blocks. -/
theorem C8_block_partition_insufficient_witness :
    (block_partition [(1 : ℚ)] 3 = .error .InsufficientData
        ↔ [(1 : ℚ)].length < 3)
    ∧ ((estimatorErrors (fun q => q) (fun a b => a.sum - b.sum) [1] [2] 0 3
          ⟨7⟩).1).2 = some (.error .InsufficientData) :=
  ⟨(C8_block_partition_insufficient [1] [2] 3 (fun q => q)
      (fun a b => a.sum - b.sum) 0 ⟨7⟩).1,
   (C8_block_partition_insufficient [1] [2] 3 (fun q => q)
      (fun a b => a.sum - b.sum) 0 ⟨7⟩).2 (by decide) (by decide)⟩

/-- `ratAbs` agrees with the lattice absolute value on the rationals. -/
theorem ratAbs_eq_abs (q : ℚ) : ratAbs q = |q| := by
  unfold ratAbs
  by_cases h : q < 0
  · rw [if_pos h, abs_of_neg h]
  · rw [if_neg h, abs_of_nonneg (le_of_not_lt h)]

/-- The bisection search only ever accepts a point within tolerance: if it
returns a value, that value satisfies `|g x| < tol`. -/
theorem solveToTol_tol (g : ℚ → ℚ) (tol : ℚ) :
    ∀ (n : ℕ) (lo hi x : ℚ), solveToTol g tol n lo hi = some x →
      |g x| < tol := by
  intro n
  induction n with
  | zero => intro lo hi x h; exact absurd h (by simp [solveToTol])
  | succ k ih =>
    intro lo hi x h
    rw [solveToTol] at h
    by_cases h1 : ratAbs (g ((lo + hi) / 2)) < tol
    · rw [if_pos h1] at h
      cases h
      rw [← ratAbs_eq_abs]
      exact h1
    · rw [if_neg h1] at h
      by_cases h2 : 0 < g ((lo + hi) / 2)
      · rw [if_pos h2] at h
        exact ih lo ((lo + hi) / 2) x h
      · rw [if_neg h2] at h
        exact ih ((lo + hi) / 2) hi x h

/-- Claim C2: whenever the BAR root search returns a point estimate `dG`,
that estimate satisfies `|g(dG)| < tol` for the configured tolerance, where
`g` is BAR's implicit function. -/
theorem C2_bar_tolerance (expf : ℚ → ℚ) (beta tol : ℚ) (maxit : ℕ)
    (wf wr : List ℚ) (lo hi x : ℚ)
    (h : barDG expf beta tol maxit wf wr lo hi = some x) :
    |gBAR expf beta wf wr x| < tol :=
  solveToTol_tol (gBAR expf beta wf wr) tol maxit lo hi x h

/-- Witness for C2 at a concrete input where the search converges. -/
theorem C2_bar_tolerance_witness :
    barDG (fun _ => 1) 1 (1 / 2) 5 [1] [2] 0 4 = some 2
    ∧ |gBAR (fun _ => 1) 1 [1] [2] 2| < 1 / 2 :=
  ⟨by norm_num [barDG, solveToTol, gBAR, fermi, ratAbs],
   C2_bar_tolerance (fun _ => 1) 1 (1 / 2) 5 [1] [2] 0 4 2
     (by norm_num [barDG, solveToTol, gBAR, fermi, ratAbs])⟩

/-- Concrete estimator outputs, used by the closed counterexample and
witness statements. -/
def cEx : CrooksRaw := ⟨1, 2, 3, 4, 5, 6, 7, 8⟩

/-- Concrete BAR outputs for the closed statements. -/
def bEx : BarRaw := ⟨1, 2, 3, 4, 5, 6⟩

/-- Concrete Jarzynski outputs for the closed statements. -/
def jEx : JarzRaw := ⟨1, 2, 3, 4, 5, 6, 7⟩

/-- Counterexample to claim C1 as stated: requesting the unrecognized
estimator name "foo" does not fail with any error condition — the run
succeeds, producing a report with no estimator section at all. -/
theorem C1_invalid_selection_counterexample :
    mainRun ["foo"] "kj" 298 cEx bEx jEx 0 1 = .ok []
    ∧ "foo" ∉ knownEstimators := by
  constructor
  · rfl
  · decide

/-- Claim C1 as amended: an unrecognized estimator name is silently ignored,
never an error — the analysis run always succeeds (for a valid units choice)
whatever the method list holds, and the report depends only on the
recognized names in the list. -/
theorem C1_unrecognized_methods_ignored (methods : List String) (T uf : ℚ)
    (c : CrooksRaw) (b : BarRaw) (j : JarzRaw) (nboots nblocks : ℕ) :
    mainRun methods "kj" T c b j nboots nblocks
      = .ok (mainReport methods 1 c b j nboots nblocks)
    ∧ mainReport methods uf c b j nboots nblocks
      = mainReport (methods.filter fun m => knownEstimators.contains m)
          uf c b j nboots nblocks := by
  constructor
  · rfl
  · have hc : ("cgi" ∈ methods.filter fun m => knownEstimators.contains m)
        ↔ "cgi" ∈ methods := by
      rw [List.mem_filter]
      simp [knownEstimators]
    have hb : ("bar" ∈ methods.filter fun m => knownEstimators.contains m)
        ↔ "bar" ∈ methods := by
      rw [List.mem_filter]
      simp [knownEstimators]
    have hj : ("jarz" ∈ methods.filter fun m => knownEstimators.contains m)
        ↔ "jarz" ∈ methods := by
      rw [List.mem_filter]
      simp [knownEstimators]
    simp only [mainReport]
    rw [if_congr hc rfl rfl, if_congr hb rfl rfl, if_congr hj rfl rfl]

/-- Rescaling the CGI section: every entry is energy-valued, so the whole
section scales entrywise by the unit factor. -/
theorem cgiReport_scale (uf : ℚ) (c : CrooksRaw) (nboots nblocks : ℕ) :
    cgiReport uf c nboots nblocks
      = (cgiReport 1 c nboots nblocks).map (scaleEntry uf) := by
  by_cases hb : 0 < nboots <;> by_cases hn : 1 < nblocks <;>
    simp [cgiReport, hb, hn, scaleEntry, isConvLabel, mul_one]

/-- Rescaling the BAR section: the energy-valued entries scale by the unit
factor while the `Conv` entries are untouched. -/
theorem barReport_scale (uf : ℚ) (b : BarRaw) (nboots nblocks : ℕ) :
    barReport uf b nboots nblocks
      = (barReport 1 b nboots nblocks).map (scaleEntry uf) := by
  by_cases hb : 0 < nboots <;> by_cases hn : 1 < nblocks <;>
    simp [barReport, hb, hn, scaleEntry, isConvLabel, mul_one]

/-- Rescaling the Jarzynski section: every entry is energy-valued, so the
whole section scales entrywise by the unit factor. -/
theorem jarzReport_scale (uf : ℚ) (j : JarzRaw) (nboots nblocks : ℕ) :
    jarzReport uf j nboots nblocks
      = (jarzReport 1 j nboots nblocks).map (scaleEntry uf) := by
  by_cases hb : 0 < nboots <;> by_cases hn : 1 < nblocks <;>
    simp [jarzReport, hb, hn, scaleEntry, isConvLabel, mul_one]

/-- Entrywise rescaling never changes the `Conv`-labelled entries. -/
theorem filter_conv_scale (uf : ℚ) (l : List Entry) :
    (l.map (scaleEntry uf)).filter (fun e => isConvLabel e.label)
      = l.filter (fun e => isConvLabel e.label) := by
  induction l with
  | nil => rfl
  | cons e rest ih =>
    cases hcl : isConvLabel e.label with
    | true => simp [scaleEntry, hcl, ih]
    | false => simp [scaleEntry, hcl, ih]

/-- Claim C9: the three unit options map to the factors `1`, `1/4.184` and
`1/(kb·T)`; every energy-valued output of the report is the raw value
multiplied by the selected factor, while BAR's dimensionless `Conv`
diagnostic and its bootstrap error are reported unscaled — so the
`Conv`-labelled entries never depend on the units option. -/
theorem C9_units_scaling (T uf : ℚ) (methods : List String) (c : CrooksRaw)
    (b : BarRaw) (j : JarzRaw) (nboots nblocks : ℕ) :
    parseUnitFact "kj" T = .ok 1
    ∧ parseUnitFact "kcal" T = .ok (1 / (4184 / 1000))
    ∧ parseUnitFact "kt" T = .ok (1 / (kb * T))
    ∧ mainReport methods uf c b j nboots nblocks
        = (mainReport methods 1 c b j nboots nblocks).map (scaleEntry uf)
    ∧ (mainReport methods uf c b j nboots nblocks).filter
          (fun e => isConvLabel e.label)
        = (mainReport methods 1 c b j nboots nblocks).filter
          (fun e => isConvLabel e.label) := by
  have hmap : mainReport methods uf c b j nboots nblocks
      = (mainReport methods 1 c b j nboots nblocks).map (scaleEntry uf) := by
    by_cases hc : "cgi" ∈ methods <;> by_cases hb : "bar" ∈ methods <;>
      by_cases hj : "jarz" ∈ methods <;>
        simp [mainReport, hc, hb, hj, cgiReport_scale uf c,
          barReport_scale uf b, jarzReport_scale uf j]
  refine ⟨rfl, rfl, rfl, hmap, ?_⟩
  rw [hmap, filter_conv_scale]

/-- Claim C4: with `nboots = 0` no bootstrap error kind appears anywhere in
the report of any estimator (rather than appearing with value zero), and
with `nblocks = 1` no block error kind is ever populated. -/
theorem C4_error_kinds_gated (uf : ℚ) (c : CrooksRaw) (b : BarRaw)
    (j : JarzRaw) (nboots nblocks : ℕ) :
    (nboots = 0 →
      (mainReport knownEstimators uf c b j nboots nblocks).filter
        (fun e => bootKinds.contains e.label) = [])
    ∧ (nblocks = 1 →
      (mainReport knownEstimators uf c b j nboots nblocks).filter
        (fun e => blockKinds.contains e.label) = []) := by
  constructor
  · intro h
    subst h
    by_cases hn : 1 < nblocks <;>
      simp [mainReport, knownEstimators, cgiReport, barReport, jarzReport,
        hn, bootKinds, blockKinds, List.filter_append] <;>
      decide
  · intro h
    subst h
    by_cases hb : 0 < nboots <;>
      simp [mainReport, knownEstimators, cgiReport, barReport, jarzReport,
        hb, bootKinds, blockKinds, List.filter_append] <;>
      decide

/-- Witness for C4 at a concrete configuration: no bootstrap and a single
block. -/
theorem C4_error_kinds_gated_witness :
    (mainReport knownEstimators 1 cEx bEx jEx 0 1).filter
        (fun e => bootKinds.contains e.label) = []
    ∧ (mainReport knownEstimators 1 cEx bEx jEx 0 1).filter
        (fun e => blockKinds.contains e.label) = [] :=
  ⟨(C4_error_kinds_gated 1 cEx bEx jEx 0 1).1 rfl,
   (C4_error_kinds_gated 1 cEx bEx jEx 0 1).2 rfl⟩

/-- Claim C5: the CGI section always carries the `analytical`
(parametric-bootstrap) error — scaled like every energy value — for every
`nboots` (including 0) and every `nblocks`; and the parametric bootstrap
itself always takes the internally fixed number of redraws, which is no
function of the user's `nboots`. -/
theorem C5_cgi_analytical_always (uf : ℚ) (c : CrooksRaw)
    (nboots nblocks : ℕ) (sqrtf logf : ℚ → ℚ)
    (drawMuF drawSigF drawMuR drawSigR : ℕ → ℚ) :
    Entry.mk .errAnalytical (c.err_boot1 * uf)
        ∈ cgiReport uf c nboots nblocks
    ∧ (cgiAnalyticalDGs sqrtf logf drawMuF drawSigF drawMuR drawSigR).length
        = nbootsParametricDefault := by
  constructor
  · simp [cgiReport]
  · simp [cgiAnalyticalDGs]

/-- Claim C3: on every input on which no candidate root of the
Gaussian-intersection equation lies between the forward and the reverse
mean, the CGI estimator reports `intersects = false` and falls back to the
midpoint of the means. -/
theorem C3_cgi_no_intersection (sqrtf logf : ℚ → ℚ) (muf sigf mur sigr : ℚ)
    (h : ∀ r ∈ cgiCandidates sqrtf logf muf sigf mur sigr,
      betweenMeans muf mur r = false) :
    cgiEstimate sqrtf logf muf sigf mur sigr = (false, (muf + mur) / 2) := by
  unfold cgiEstimate
  have hnil : (cgiCandidates sqrtf logf muf sigf mur sigr).filter
      (betweenMeans muf mur) = [] := by
    rw [List.filter_eq_nil_iff]
    intro r hr
    rw [h r hr]
    exact Bool.false_ne_true
  rw [hnil]

/-- Witness for C3 at a concrete input: Gaussians whose candidate roots both
fall outside the interval between the means. -/
theorem C3_cgi_no_intersection_witness :
    cgiEstimate (fun _ => 228 / 100) (fun _ => -7 / 10) 0 1 1 2
      = (false, (0 + 1) / 2) :=
  C3_cgi_no_intersection (fun _ => 228 / 100) (fun _ => -7 / 10) 0 1 1 2
    (by
      intro r hr
      norm_num [cgiCandidates] at hr
      rcases hr with h | h <;>
        norm_num [h, betweenMeans])

/-- Claim C7: the error machinery is a pure function of the explicit random
state — two runs from equal seeds return equal results — and with
`nboots = 0` and `nblocks = 1` it consumes no randomness at all: the final
state is the initial one and both optional errors are absent. -/
theorem C7_seed_determinism (sqrtf : ℚ → ℚ)
    (pointEst : List ℚ → List ℚ → ℚ) (wf wr : List ℚ)
    (nboots nblocks : ℕ) (s1 s2 : RandState) :
    (s1 = s2 →
      estimatorErrors sqrtf pointEst wf wr nboots nblocks s1
        = estimatorErrors sqrtf pointEst wf wr nboots nblocks s2)
    ∧ (nboots = 0 → nblocks = 1 →
      (estimatorErrors sqrtf pointEst wf wr nboots nblocks s1).2 = s1
      ∧ (estimatorErrors sqrtf pointEst wf wr nboots nblocks s1).1
          = (none, none)) := by
  constructor
  · intro h
    rw [h]
  · intro hb hn
    subst hb
    subst hn
    constructor
    · rfl
    · rfl

/-- Witness for C7 at a concrete input and seed. -/
theorem C7_seed_determinism_witness :
    (estimatorErrors (fun q => q) (fun a b => a.sum - b.sum) [1, 2] [3] 0 1
        ⟨42⟩).2 = ⟨42⟩
    ∧ (estimatorErrors (fun q => q) (fun a b => a.sum - b.sum) [1, 2] [3] 0 1
        ⟨42⟩).1 = (none, none) :=
  (C7_seed_determinism (fun q => q) (fun a b => a.sum - b.sum) [1, 2] [3]
    0 1 ⟨42⟩ ⟨42⟩).2 rfl rfl

/-- Claim C6: the Jarzynski mean estimate is the arithmetic mean of the
forward and reverse estimates, hence lies between them, and coincides with
them for identical per-direction estimates. -/
theorem C6_jarz_mean_between (expf logf : ℚ → ℚ) (beta : ℚ)
    (wf wr : List ℚ) :
    jarz_dg_mean expf logf beta wf wr
        = (jarzDir expf logf beta wf + jarzDir expf logf beta wr) / 2
    ∧ min (jarzDir expf logf beta wf) (jarzDir expf logf beta wr)
        ≤ jarz_dg_mean expf logf beta wf wr
    ∧ jarz_dg_mean expf logf beta wf wr
        ≤ max (jarzDir expf logf beta wf) (jarzDir expf logf beta wr)
    ∧ jarz_dg_mean expf logf beta wf wf = jarzDir expf logf beta wf := by
  refine ⟨rfl, ?_, ?_, ?_⟩
  · rcases le_total (jarzDir expf logf beta wf) (jarzDir expf logf beta wr)
      with h | h
    · rw [min_eq_left h]
      unfold jarz_dg_mean
      linarith
    · rw [min_eq_right h]
      unfold jarz_dg_mean
      linarith
  · rcases le_total (jarzDir expf logf beta wf) (jarzDir expf logf beta wr)
      with h | h
    · rw [max_eq_right h]
      unfold jarz_dg_mean
      linarith
    · rw [max_eq_left h]
      unfold jarz_dg_mean
      linarith
  · unfold jarz_dg_mean
    ring

end Pmx
